import Mathlib

/-!
# Verification of the twitter2rss core components

Shallow embedding of the adaptive scheduler (`scheduler.js`, class
`AdaptiveScheduler`), the rate-limit ledger (`src/rateLimitManager.js`,
class `RateLimitManager`), the governed retry wrapper
(`src/twitterService.js`, `makeRequestWithRetry`) and the poll-cycle /
feed-cache interaction (`src/app.js`, `fetchAndUpdateFeed` and the
`GET /rss` handler).

Conventions of the embedding:
* JavaScript numbers used for the scheduler's interval arithmetic are
  modelled as rationals (`ℚ`); every constant appearing in the claims
  (0.8, 0.9, 1.2, 1.5 and the concrete scenario values) is exactly
  representable and the products appearing in the claims round to the
  same values in IEEE double arithmetic.
* Timestamps are integers (milliseconds since epoch), as produced by
  `Date.now()`.
* The JavaScript `Map` objects of the rate-limit manager are modelled
  as functions `String → Option QuotaRecord`; `Map.delete` and
  `Map.set` become pointwise updates.
* Exceptions are modelled with `Except`.
-/

namespace Twitter2RSS

/-! ## Adaptive scheduler (scheduler.js)

State of an `AdaptiveScheduler` instance: the fields of the JS class
that participate in the scheduling logic (`database`, `twitterService`
and the cron `task` handle are external collaborators and carry no
state consulted by the transitions). -/

structure AdaptiveScheduler where
  minInterval : ℚ
  maxInterval : ℚ
  currentInterval : ℚ
  isRunning : Bool
  consecutiveEmptyFetches : ℕ
  lastFetchTime : Option ℤ
  deriving Repr, DecidableEq

/-- The constructor `AdaptiveScheduler(database, twitterService, minInterval, maxInterval)`:
`currentInterval = minInterval`, `isRunning = false`,
`consecutiveEmptyFetches = 0`, `lastFetchTime = null`. -/
def AdaptiveScheduler.mk0 (minInterval maxInterval : ℚ) : AdaptiveScheduler :=
  { minInterval := minInterval
    maxInterval := maxInterval
    currentInterval := minInterval
    isRunning := false
    consecutiveEmptyFetches := 0
    lastFetchTime := none }

/-- `adaptInterval(result)` from scheduler.js.  The JS reads
`result.newTweets || 0`; we take the resulting non-negative count
directly as `newTweetsCount : ℕ`. -/
def AdaptiveScheduler.adaptInterval (s : AdaptiveScheduler) (newTweetsCount : ℕ) :
    AdaptiveScheduler :=
  if newTweetsCount > 0 then
    -- found new tweets: reset the empty-fetch counter
    let s1 := { s with consecutiveEmptyFetches := 0 }
    if newTweetsCount ≥ 10 then
      { s1 with currentInterval := max (s1.currentInterval * 0.8) s1.minInterval }
    else if newTweetsCount ≥ 5 then
      { s1 with currentInterval := max (s1.currentInterval * 0.9) s1.minInterval }
    else
      s1
  else
    -- no new tweets: bump the counter, then increase the interval
    let s1 := { s with consecutiveEmptyFetches := s.consecutiveEmptyFetches + 1 }
    if s1.consecutiveEmptyFetches ≥ 3 then
      { s1 with currentInterval := min (s1.currentInterval * 1.5) s1.maxInterval }
    else if s1.consecutiveEmptyFetches ≥ 1 then
      { s1 with currentInterval := min (s1.currentInterval * 1.2) s1.maxInterval }
    else
      s1

/-- The outcome of one invocation of the poll function passed to
`runFetch`: either it returns a result whose `newTweets` field we
retain, or it throws. -/
def FetchOutcome := Except Unit ℕ

/-- The guard prologue of `runFetch`: if `isRunning` is set the call
returns at once (`none`); otherwise `isRunning` is set and
`lastFetchTime` recorded before the poll function is invoked. -/
def AdaptiveScheduler.runFetchBegin (s : AdaptiveScheduler) (now : ℤ) :
    Option AdaptiveScheduler :=
  if s.isRunning then none
  else some { s with isRunning := true, lastFetchTime := some now }

/-- The remainder of `runFetch` after the poll function has settled:
the `try` branch applies `adaptInterval` to the result, the `catch`
branch applies the mild backoff `min(currentInterval * 1.2, maxInterval)`
and leaves `consecutiveEmptyFetches` alone; the `finally` branch clears
`isRunning` on both paths. -/
def AdaptiveScheduler.runFetchFinish (s : AdaptiveScheduler) (outcome : Except Unit ℕ) :
    AdaptiveScheduler :=
  match outcome with
  | .ok n =>
      let s1 := s.adaptInterval n
      { s1 with isRunning := false }
  | .error _ =>
      { s with
        currentInterval := min (s.currentInterval * 1.2) s.maxInterval
        isRunning := false }

/-- `runFetch(fetchFunction)` as one transition.  The boolean records
whether the poll function was invoked (`false` exactly when the
`isRunning` guard made the call a no-op).  Errors thrown by the poll
function are absorbed: the function always returns a state. -/
def AdaptiveScheduler.runFetch (s : AdaptiveScheduler) (now : ℤ)
    (outcome : Except Unit ℕ) : AdaptiveScheduler × Bool :=
  match s.runFetchBegin now with
  | none => (s, false)
  | some s1 => (s1.runFetchFinish outcome, true)

/-- A whole sequence of scheduled runs, one outcome per run. -/
def AdaptiveScheduler.runPolls (s : AdaptiveScheduler) (now : ℤ)
    (outcomes : List (Except Unit ℕ)) : AdaptiveScheduler :=
  outcomes.foldl (fun st o => (st.runFetch now o).1) s

/-- Modelled from the spec's transition table (section 4.2), for
comparison with `adaptInterval` as implemented: four cases on
`newItemCount` (≥ 10, ≥ 5, ≥ 1, = 0), the last incrementing the
counter and branching on whether the incremented counter reached 3. -/
def specTransitionTable (s : AdaptiveScheduler) (newItemCount : ℕ) :
    AdaptiveScheduler :=
  if newItemCount ≥ 10 then
    { s with consecutiveEmptyFetches := 0
             currentInterval := max (s.currentInterval * 0.8) s.minInterval }
  else if newItemCount ≥ 5 then
    { s with consecutiveEmptyFetches := 0
             currentInterval := max (s.currentInterval * 0.9) s.minInterval }
  else if newItemCount ≥ 1 then
    { s with consecutiveEmptyFetches := 0 }
  else
    let c := s.consecutiveEmptyFetches + 1
    if c ≥ 3 then
      { s with consecutiveEmptyFetches := c
               currentInterval := min (s.currentInterval * 1.5) s.maxInterval }
    else
      { s with consecutiveEmptyFetches := c
               currentInterval := min (s.currentInterval * 1.2) s.maxInterval }

/-- Shorthand for the state used in the spec's concrete scenario:
bounds 60/480, a given current interval and empty-poll counter, not
currently polling. -/
def scenState (cur : ℚ) (empties : ℕ) : AdaptiveScheduler :=
  { minInterval := 60
    maxInterval := 480
    currentInterval := cur
    isRunning := false
    consecutiveEmptyFetches := empties
    lastFetchTime := none }

/-! ## Rate limit manager (src/rateLimitManager.js)

The two `Map`s of the class are modelled as functions from endpoint
keys to optional values.  The JS methods first pass the endpoint
through `normalizeEndpoint` (a pure function from keys to keys that
collapses path parameters); we let the maps be keyed by the normalized
endpoint and the operations take the normalized key directly, which
loses nothing since every claim quantifies over all keys. -/

/-- One entry of `this.rateLimits`: the object built by
`updateFromHeaders`.  `reset` is in milliseconds (the header value is
epoch seconds, multiplied by 1000 on storage). -/
structure QuotaRecord where
  limit : ℤ
  remaining : ℤ
  reset : ℤ
  lastUpdated : ℤ
  deriving Repr, DecidableEq

/-- The mutable state of a `RateLimitManager` instance. -/
structure RateLimitState where
  rateLimits : String → Option QuotaRecord
  lastRequests : String → Option ℤ

/-- A JavaScript value as it can appear in a header slot: `undefined`,
a number, or a string. -/
inductive JSVal where
  | undef : JSVal
  | num : ℤ → JSVal
  | str : String → JSVal
  deriving Repr, DecidableEq

/-- JavaScript truthiness of a header slot value: `undefined`, `0` and
`""` are falsy, everything else is truthy.  (NaN never arises here:
the extracted slots are either absent, numbers from the client
library's rate-limit object, or header strings.) -/
def JSVal.truthy : JSVal → Bool
  | .undef => false
  | .num n => n ≠ 0
  | .str s => s ≠ ""

/-- The numeric value of a leading decimal-digit run, `none` when the
first character is not a digit. -/
def digitRunVal (cs : List Char) : Option ℕ :=
  let ds := cs.takeWhile Char.isDigit
  if ds.isEmpty then none
  else some (ds.foldl (fun acc c => 10 * acc + (c.toNat - '0'.toNat)) 0)

/-- JavaScript `parseInt` (radix 10) restricted to the values that can
occupy a header slot: `NaN` is `none`; a number parses to itself (the
values at hand are integers, so the string round-trip is the
identity); a string is parsed as optional sign plus leading digit run
after skipping leading spaces, `NaN` when no digits follow. -/
def parseIntJS : JSVal → Option ℤ
  | .undef => none
  | .num n => some n
  | .str s =>
      match s.data.dropWhile (fun c => c = ' ') with
      | '-' :: rest => (digitRunVal rest).map (fun v => -(v : ℤ))
      | '+' :: rest => (digitRunVal rest).map (fun v => (v : ℤ))
      | rest => (digitRunVal rest).map (fun v => (v : ℤ))

/-- The three header slots handed to `updateFromHeaders`
(`x-rate-limit-limit`, `x-rate-limit-remaining`,
`x-rate-limit-reset`). -/
structure JSHeaders where
  limit : JSVal
  remaining : JSVal
  reset : JSVal
  deriving Repr, DecidableEq

/-- `updateFromHeaders(endpoint, headers)`: parse the three headers;
if none is NaN, overwrite the record for the endpoint (reset converted
from epoch seconds to milliseconds, `lastUpdated = Date.now()`);
otherwise do nothing. -/
def updateFromHeaders (st : RateLimitState) (now : ℤ) (ep : String)
    (h : JSHeaders) : RateLimitState :=
  match parseIntJS h.limit, parseIntJS h.remaining, parseIntJS h.reset with
  | some l, some r, some rs =>
      { st with rateLimits := fun k =>
          if k = ep then
            some { limit := l, remaining := r, reset := rs * 1000, lastUpdated := now }
          else st.rateLimits k }
  | _, _, _ => st

/-- The value returned by `canMakeRequest` (the `resetTime` /
`remaining` extras of some branches are omitted: no claim consults
them). -/
structure CanRequestResult where
  canRequest : Bool
  waitTime : ℤ
  reason : String
  deriving Repr, DecidableEq

/-- `canMakeRequest(endpoint)`: four-way branch on the record for the
endpoint.  Deleting a stale record mutates `this.rateLimits`, so the
new manager state is returned alongside the result. -/
def canMakeRequest (st : RateLimitState) (now : ℤ) (ep : String) :
    CanRequestResult × RateLimitState :=
  match st.rateLimits ep with
  | some rl =>
      if now ≥ rl.reset then
        ({ canRequest := true, waitTime := 0, reason := "window_reset" },
         { st with rateLimits := fun k => if k = ep then none else st.rateLimits k })
      else if rl.remaining ≤ 0 then
        ({ canRequest := false, waitTime := max (rl.reset - now) 0,
           reason := "rate_limit_exceeded" }, st)
      else
        ({ canRequest := true, waitTime := 0, reason := "within_limits" }, st)
  | none => ({ canRequest := true, waitTime := 0, reason := "no_limit_info" }, st)

/-- `recordRequest(endpoint)`: stamp `lastRequests`, then decrement
`remaining` only when a record is present with `remaining > 0`. -/
def recordRequest (st : RateLimitState) (now : ℤ) (ep : String) : RateLimitState :=
  let st1 := { st with lastRequests := fun k =>
      if k = ep then some now else st.lastRequests k }
  match st.rateLimits ep with
  | some rl =>
      if rl.remaining > 0 then
        { st1 with rateLimits := fun k =>
            if k = ep then some { rl with remaining := rl.remaining - 1 }
            else st.rateLimits k }
      else st1
  | none => st1

/-- One call into the manager, for stating properties of arbitrary
operation sequences. -/
inductive LedgerOp where
  | check (now : ℤ) (ep : String) : LedgerOp
  | record (now : ℤ) (ep : String) : LedgerOp
  | update (now : ℤ) (ep : String) (h : JSHeaders) : LedgerOp

/-- Apply one ledger operation to the manager state. -/
def applyLedgerOp (st : RateLimitState) : LedgerOp → RateLimitState
  | .check now ep => (canMakeRequest st now ep).2
  | .record now ep => recordRequest st now ep
  | .update now ep h => updateFromHeaders st now ep h

/-- Apply a sequence of ledger operations left to right. -/
def applyLedgerOps (st : RateLimitState) (ops : List LedgerOp) : RateLimitState :=
  ops.foldl applyLedgerOp st

/-- A manager with nothing recorded (the constructor: two empty maps). -/
def emptyRateLimitState : RateLimitState :=
  { rateLimits := fun _ => none, lastRequests := fun _ => none }

/-! ## Governed retry wrapper (src/twitterService.js, makeRequestWithRetry) -/

/-- A JavaScript error as the retry loop inspects it: the `code`
property (absent on plain errors), the message, and — because JS
errors are open objects — a slot for an attempt-count tag, which is
`none` unless some code sets such a property.  `makeRequestWithRetry`
never writes it. -/
structure JsError where
  code : Option ℤ
  message : String
  attempts : Option ℕ
  deriving Repr, DecidableEq

/-- What `makeRequestWithRetry` produces, together with the two
counters the claims talk about: how many times `requestFunction` was
invoked, and the value of the `attempt` variable when the loop was
left (on the failure path this value is what the final log line
reports as `totalAttempts`). -/
structure RetryOutcome (α : Type) where
  result : Except JsError α
  invocations : ℕ
  finalAttempt : ℕ
  deriving Repr

/-- The `while (attempt <= maxRetries)` loop of
`makeRequestWithRetry`, entered with counter value `attempt`.  The
operation is modelled as a function from the attempt number to that
invocation's outcome.  On success the loop returns from inside the
body; on a `code === 429` failure the counter is incremented and the
loop re-entered while attempts remain (the `handleRetryDelay` sleep
has no effect on any state here); on any other failure the loop is
left by `break` before the counter is incremented.  After the loop the
last error is re-thrown unmodified. -/
def retryGo (op : ℕ → Except JsError α) (maxRetries attempt : ℕ) : RetryOutcome α :=
  match op attempt with
  | .ok a => { result := .ok a, invocations := 1, finalAttempt := attempt }
  | .error e =>
      if e.code = some 429 then
        if h : attempt < maxRetries then
          let r := retryGo op maxRetries (attempt + 1)
          { r with invocations := r.invocations + 1 }
        else
          { result := .error e, invocations := 1, finalAttempt := attempt + 1 }
      else
        { result := .error e, invocations := 1, finalAttempt := attempt }
termination_by maxRetries - attempt
decreasing_by omega

/-- `makeRequestWithRetry(endpoint, requestFunction, maxRetries)`:
the loop started at `attempt = 0`. -/
def makeRequestWithRetry (op : ℕ → Except JsError α) (maxRetries : ℕ) :
    RetryOutcome α :=
  retryGo op maxRetries 0

/-- The rate-limit bookkeeping of the success path of
`makeRequestWithRetry` (its lines from the extraction of the headers
to the guarded `updateFromHeaders` call): probe `response.rateLimit`,
then `response._rateLimit`, then `response.headers`, first match wins. -/
structure RateLimitInfo where
  limit : ℤ
  remaining : ℤ
  reset : ℤ
  deriving Repr, DecidableEq

/-- The shapes of a response that the extraction inspects.  Payload
fields are irrelevant to the ledger bookkeeping and omitted. -/
structure UpstreamResponse where
  rateLimit : Option RateLimitInfo
  underscoreRateLimit : Option RateLimitInfo
  headers : Option JSHeaders
  deriving Repr, DecidableEq

/-- Build the `rateLimitHeaders` object: from `response.rateLimit` or
`response._rateLimit` the three slots are numbers; from
`response.headers` they are taken as-is (header strings or
`undefined`); with no source all three slots stay `undefined` (the
empty object `{}`). -/
def extractRateLimitHeaders (resp : UpstreamResponse) : JSHeaders :=
  match resp.rateLimit with
  | some rl => { limit := .num rl.limit, remaining := .num rl.remaining, reset := .num rl.reset }
  | none =>
      match resp.underscoreRateLimit with
      | some rl => { limit := .num rl.limit, remaining := .num rl.remaining, reset := .num rl.reset }
      | none =>
          match resp.headers with
          | some h => h
          | none => { limit := .undef, remaining := .undef, reset := .undef }

/-- The guarded ledger update on the success path:
`if (rateLimitHeaders['x-rate-limit-limit']) { updateFromHeaders(...) }`
— a JS truthiness test, so a limit of `0` (or `undefined`, or `""`)
skips the update. -/
def headerUpdateStep (st : RateLimitState) (now : ℤ) (ep : String)
    (resp : UpstreamResponse) : RateLimitState :=
  let h := extractRateLimitHeaders resp
  if h.limit.truthy then updateFromHeaders st now ep h else st

/-! ## Poll cycle and feed cache (src/app.js) -/

/-- The slice of `TwitterListRSS` state that the poll cycle and the
`GET /rss` handler exchange: the stored tweets (ids suffice), the
cached feed document and its timestamp. -/
structure AppState where
  dbTweets : List String
  cachedRSSFeed : Option String
  lastCacheUpdate : Option ℤ
  deriving Repr, DecidableEq

/-- The value `fetchAndUpdateFeed` resolves with (the `totalTweets` /
`timestamp` fields are omitted: no claim consults them). -/
structure FetchSummary where
  success : Bool
  newTweets : ℕ
  deriving Repr, DecidableEq

/-- Stand-in for `rssService.generateFeed`: a deterministic document
derived from the stored tweets (the claims depend only on whether the
document is rebuilt, not on its text). -/
def renderFeed (tweets : List String) : String :=
  String.intercalate "\n" tweets

/-- `fetchAndUpdateFeed()` with the tweets returned by
`getListTweets` as input: when at least one tweet came back, save
them and clear both cache fields; otherwise touch nothing.  Resolves
with `{success: true, newTweets}`. -/
def fetchAndUpdateFeed (st : AppState) (fetched : List String) :
    AppState × FetchSummary :=
  if fetched.length > 0 then
    ({ dbTweets := st.dbTweets ++ fetched,
       cachedRSSFeed := none,
       lastCacheUpdate := none },
     { success := true, newTweets := fetched.length })
  else
    (st, { success := true, newTweets := 0 })

/-- `generateRSSFeed()`: rebuild the document from the store and stamp
the cache. -/
def generateRSSFeed (st : AppState) (now : ℤ) : AppState :=
  { st with cachedRSSFeed := some (renderFeed st.dbTweets),
            lastCacheUpdate := some now }

/-- The `GET /rss` handler in server (non-serverless) mode:
`cacheAge` is `(now - lastCacheUpdate)/1000` seconds, or `Infinity`
when no update is recorded; the document is regenerated when the
cache is empty or older than `cacheTimeout`; the (possibly fresh)
cached document is served.  Returns the new state, the served
document and whether regeneration happened. -/
def rssHandler (st : AppState) (now : ℤ) (cacheTimeout : ℚ) :
    AppState × String × Bool :=
  let stale : Bool :=
    st.cachedRSSFeed.isNone ||
      (match st.lastCacheUpdate with
       | none => true
       | some t => decide ((((now - t : ℤ) : ℚ)) / 1000 > cacheTimeout))
  let st1 := if stale then generateRSSFeed st now else st
  (st1, (st1.cachedRSSFeed.getD ""), stale)

/-! ## Theorems -/

/-- C1 (counterexample).  The spec's concrete scenario is wrong on its
first two entries: with `minInterval = 60` and current interval `60`,
a poll with 15 new tweets yields `max(60 * 0.8, 60) = 60`, not the
claimed `48` — the clamp at `minInterval` that the claim itself states
in its general rule keeps the interval at 60. -/
theorem scenario_fifteen_gives_sixty :
    ((scenState 60 0).adaptInterval 15).currentInterval = 60 ∧
    ((scenState 60 0).adaptInterval 15).currentInterval ≠ 48 ∧
    ((scenState 60 0).adaptInterval 7).currentInterval = 60 ∧
    ((scenState 60 0).adaptInterval 7).currentInterval ≠ 54 := by
  norm_num [AdaptiveScheduler.adaptInterval, scenState, max_def]

/-- C1 (amended).  The interval-adaptation step computes
`(currentInterval, consecutiveEmptyPolls)` exactly per the spec's
transition table; in the concrete scenario (`minInterval = 60`,
`maxInterval = 480`, starting interval 60) the outcomes are: 15 new
items → interval 60 (the 0.8 factor is clamped at `minInterval`),
7 → 60 (clamped likewise), 3 → 60, 0 → 72, and with the counter
pre-set to 2 an empty poll gives interval 90 and counter 3. -/
theorem adaptInterval_matches_spec_table :
    (∀ s n, s.adaptInterval n = specTransitionTable s n) ∧
    ((scenState 60 0).adaptInterval 15).currentInterval = 60 ∧
    ((scenState 60 0).adaptInterval 7).currentInterval = 60 ∧
    ((scenState 60 0).adaptInterval 3).currentInterval = 60 ∧
    ((scenState 60 0).adaptInterval 0).currentInterval = 72 ∧
    ((scenState 60 2).adaptInterval 0).currentInterval = 90 ∧
    ((scenState 60 2).adaptInterval 0).consecutiveEmptyFetches = 3 := by
  refine ⟨fun s n => ?_, ?_⟩
  · unfold AdaptiveScheduler.adaptInterval specTransitionTable
    dsimp only
    split_ifs <;> first | rfl | omega
  · norm_num [AdaptiveScheduler.adaptInterval, scenState, max_def, min_def]

/-- The invariant behind C2: the interval bounds are those given at
construction and the current interval lies between them. -/
def withinBounds (minI maxI : ℚ) (s : AdaptiveScheduler) : Prop :=
  s.minInterval = minI ∧ s.maxInterval = maxI ∧
    minI ≤ s.currentInterval ∧ s.currentInterval ≤ maxI

theorem adaptInterval_within (minI maxI : ℚ) (s : AdaptiveScheduler) (n : ℕ)
    (h0 : 0 ≤ minI) (hw : withinBounds minI maxI s) :
    withinBounds minI maxI (s.adaptInterval n) := by
  obtain ⟨hmin, hmax, hlo, hhi⟩ := hw
  subst hmin; subst hmax
  have hcur : (0 : ℚ) ≤ s.currentInterval := le_trans h0 hlo
  unfold AdaptiveScheduler.adaptInterval
  dsimp only
  split_ifs <;>
    first
      | omega
      | (refine ⟨rfl, rfl, ?_, ?_⟩ <;>
          first
            | exact le_max_right _ _
            | exact min_le_right _ _
            | assumption
            | (apply max_le <;> linarith)
            | (apply le_min <;> linarith))

theorem runFetch_within (minI maxI : ℚ) (s : AdaptiveScheduler) (now : ℤ)
    (o : Except Unit ℕ) (h0 : 0 ≤ minI) (hw : withinBounds minI maxI s) :
    withinBounds minI maxI (s.runFetch now o).1 := by
  unfold AdaptiveScheduler.runFetch AdaptiveScheduler.runFetchBegin
    AdaptiveScheduler.runFetchFinish
  obtain ⟨hmin, hmax, hlo, hhi⟩ := hw
  subst hmin; subst hmax
  have hcur : (0 : ℚ) ≤ s.currentInterval := le_trans h0 hlo
  by_cases hg : s.isRunning
  · simp only [hg, if_true]
    exact ⟨rfl, rfl, hlo, hhi⟩
  · simp only [hg, if_false]
    cases o with
    | ok n =>
        have h := adaptInterval_within s.minInterval s.maxInterval
          { s with isRunning := true, lastFetchTime := some now } n h0
          ⟨rfl, rfl, hlo, hhi⟩
        exact ⟨h.1, h.2.1, h.2.2.1, h.2.2.2⟩
    | error e =>
        refine ⟨rfl, rfl, ?_, min_le_right _ _⟩
        apply le_min <;> linarith

theorem runPolls_within (minI maxI : ℚ) (s : AdaptiveScheduler) (now : ℤ)
    (outcomes : List (Except Unit ℕ)) (h0 : 0 ≤ minI)
    (hw : withinBounds minI maxI s) :
    withinBounds minI maxI (s.runPolls now outcomes) := by
  induction outcomes generalizing s with
  | nil => exact hw
  | cons o rest ih =>
      exact ih _ (runFetch_within minI maxI s now o h0 hw)

/-- C2 (counterexample).  The claim quantifies over every initial
state with `currentInterval = minInterval ≤ maxInterval`; with the
(degenerate, but admitted) bounds `minInterval = -10`,
`maxInterval = -9` a single successful poll with 15 new items drives
the interval to `max(-10 * 0.8, -10) = -8`, strictly above
`maxInterval`: the interval leaves `[minInterval, maxInterval]`. -/
theorem negative_bounds_escape :
    ((-10 : ℚ) ≤ -9) ∧
    ((AdaptiveScheduler.mk0 (-10) (-9)).currentInterval =
      (AdaptiveScheduler.mk0 (-10) (-9)).minInterval) ∧
    ¬ (((AdaptiveScheduler.mk0 (-10) (-9)).runPolls 0 [Except.ok 15]).currentInterval
        ≤ -9) := by
  refine ⟨by norm_num, rfl, ?_⟩
  norm_num [AdaptiveScheduler.runPolls, AdaptiveScheduler.runFetch,
    AdaptiveScheduler.runFetchBegin, AdaptiveScheduler.runFetchFinish,
    AdaptiveScheduler.adaptInterval, AdaptiveScheduler.mk0, max_def]

/-- C2 (amended).  With the additional (implicit in "minutes")
premise `0 ≤ minInterval`: starting from the constructed state
(`currentInterval = minInterval`), after any finite sequence of poll
outcomes — successes with arbitrary counts and failures mixed — the
current interval stays within `[minInterval, maxInterval]`. -/
theorem interval_always_bounded (minI maxI : ℚ) (now : ℤ)
    (outcomes : List (Except Unit ℕ)) (h0 : 0 ≤ minI) (h1 : minI ≤ maxI) :
    minI ≤ ((AdaptiveScheduler.mk0 minI maxI).runPolls now outcomes).currentInterval ∧
    ((AdaptiveScheduler.mk0 minI maxI).runPolls now outcomes).currentInterval ≤ maxI := by
  have h := runPolls_within minI maxI (AdaptiveScheduler.mk0 minI maxI) now outcomes h0
    ⟨rfl, rfl, le_refl _, h1⟩
  exact ⟨h.2.2.1, h.2.2.2⟩

/-- C2 (witness): the amended bound at `minInterval = 60`,
`maxInterval = 480` across a mixed run of 25 polls, among them long
streaks at both extremes. -/
theorem interval_always_bounded_at_60_480 :
    (0 : ℚ) ≤ 60 ∧ (60 : ℚ) ≤ 480 ∧
    (60 ≤ ((AdaptiveScheduler.mk0 60 480).runPolls 0
        (List.replicate 12 (Except.ok 15) ++ [Except.error ()] ++
          List.replicate 12 (Except.ok 0))).currentInterval ∧
      ((AdaptiveScheduler.mk0 60 480).runPolls 0
        (List.replicate 12 (Except.ok 15) ++ [Except.error ()] ++
          List.replicate 12 (Except.ok 0))).currentInterval ≤ 480) :=
  ⟨by norm_num, by norm_num,
    interval_always_bounded 60 480 0
      (List.replicate 12 (Except.ok 15) ++ [Except.error ()] ++
        List.replicate 12 (Except.ok 0)) (by norm_num) (by norm_num)⟩

/-- C3.  `canMakeRequest` settles the four cases of the quota check:
no record → allowed with zero wait and untouched state; stale record
(`now ≥ reset`) → allowed with zero wait and the record deleted (other
records untouched); live record with budget → allowed with zero wait,
state untouched; live record with no budget → not allowed with
`waitTime = reset − now`, state untouched. -/
theorem canMakeRequest_quota_cases (st : RateLimitState) (now : ℤ) (ep : String) :
    (st.rateLimits ep = none →
      canMakeRequest st now ep =
        ({ canRequest := true, waitTime := 0, reason := "no_limit_info" }, st)) ∧
    (∀ rl, st.rateLimits ep = some rl →
      (now ≥ rl.reset →
        (canMakeRequest st now ep).1 =
          { canRequest := true, waitTime := 0, reason := "window_reset" } ∧
        (canMakeRequest st now ep).2.rateLimits ep = none ∧
        (∀ k, k ≠ ep → (canMakeRequest st now ep).2.rateLimits k = st.rateLimits k)) ∧
      (now < rl.reset → rl.remaining > 0 →
        canMakeRequest st now ep =
          ({ canRequest := true, waitTime := 0, reason := "within_limits" }, st)) ∧
      (now < rl.reset → rl.remaining ≤ 0 →
        canMakeRequest st now ep =
          ({ canRequest := false, waitTime := rl.reset - now,
             reason := "rate_limit_exceeded" }, st))) := by
  unfold canMakeRequest
  refine ⟨fun hnone => by simp [hnone], fun rl hsome => ?_⟩
  rw [hsome]
  refine ⟨fun hstale => ?_, fun hlive hbudget => ?_, fun hlive hempty => ?_⟩
  · exact ⟨by simp [hstale], by simp [hstale], fun k hk => by simp [hstale, hk]⟩
  · simp [not_le.2 hlive, not_le.2 hbudget]
  · have hns : ¬ now ≥ rl.reset := not_le.2 hlive
    simp only [hns, if_false, if_pos hempty]
    have hmax : max (rl.reset - now) 0 = rl.reset - now := by
      apply max_eq_left; omega
    simp [hmax]

/-- A one-record ledger on the list-tweets endpoint, for witnesses. -/
def ledgerWith (remaining reset : ℤ) : RateLimitState :=
  { rateLimits := fun k =>
      if k = "/2/lists/:id/tweets" then
        some { limit := 900, remaining := remaining, reset := reset, lastUpdated := 0 }
      else none,
    lastRequests := fun _ => none }

theorem ledgerWith_lookup (remaining reset : ℤ) :
    (ledgerWith remaining reset).rateLimits "/2/lists/:id/tweets" =
      some { limit := 900, remaining := remaining, reset := reset, lastUpdated := 0 } := by
  simp [ledgerWith]

/-- C3 (witness): with `remaining = 0` and `resetAt = now + 5000` the
check refuses with a 5000 ms wait; once `now` passes `resetAt` the
record is discarded and the check allows. -/
theorem canMakeRequest_at_concrete_record :
    (canMakeRequest (ledgerWith 0 5000) 0 "/2/lists/:id/tweets").1 =
      { canRequest := false, waitTime := 5000, reason := "rate_limit_exceeded" } ∧
    (canMakeRequest (ledgerWith 0 5000) 6000 "/2/lists/:id/tweets").1.canRequest =
      true ∧
    (canMakeRequest (ledgerWith 0 5000) 6000 "/2/lists/:id/tweets").2.rateLimits
      "/2/lists/:id/tweets" = none := by
  have h1 := ((canMakeRequest_quota_cases (ledgerWith 0 5000) 0
    "/2/lists/:id/tweets").2 _ (ledgerWith_lookup 0 5000)).2.2
    (by norm_num) (by norm_num)
  have h2 := ((canMakeRequest_quota_cases (ledgerWith 0 5000) 6000
    "/2/lists/:id/tweets").2 _ (ledgerWith_lookup 0 5000)).1 (by norm_num)
  refine ⟨?_, ?_, h2.2.1⟩
  · rw [h1]; norm_num
  · rw [h2.1]

/-- C6.  When the poll function raises during a scheduled run (guard
not held), `runFetch` still returns a state (the error is caught and
does not propagate), `consecutiveEmptyPolls` is untouched, the
interval takes the mild backoff `min(currentInterval * 1.2,
maxInterval)`, and the guard is cleared. -/
theorem runFetch_error_caught_and_backoff (s : AdaptiveScheduler) (now : ℤ)
    (h : s.isRunning = false) :
    (s.runFetch now (Except.error ())).2 = true ∧
    (s.runFetch now (Except.error ())).1.consecutiveEmptyFetches =
      s.consecutiveEmptyFetches ∧
    (s.runFetch now (Except.error ())).1.currentInterval =
      min (s.currentInterval * 1.2) s.maxInterval ∧
    (s.runFetch now (Except.error ())).1.isRunning = false := by
  unfold AdaptiveScheduler.runFetch AdaptiveScheduler.runFetchBegin
    AdaptiveScheduler.runFetchFinish
  simp [h]

/-- C6 (witness): the failure transition at the 60/480 scenario state:
interval 60 becomes 72, the counter stays 0. -/
theorem runFetch_error_at_scenario :
    ((scenState 60 0).runFetch 0 (Except.error ())).2 = true ∧
    ((scenState 60 0).runFetch 0 (Except.error ())).1.consecutiveEmptyFetches =
      (scenState 60 0).consecutiveEmptyFetches ∧
    ((scenState 60 0).runFetch 0 (Except.error ())).1.currentInterval =
      min ((scenState 60 0).currentInterval * 1.2) (scenState 60 0).maxInterval ∧
    ((scenState 60 0).runFetch 0 (Except.error ())).1.isRunning = false :=
  runFetch_error_caught_and_backoff (scenState 60 0) 0 rfl

/-- The scheduler state while the poll function is in flight: the
guard set and `lastFetchTime` stamped (the assignments `runFetch`
performs before `await fetchFunction()`). -/
def inFlight (s : AdaptiveScheduler) (now : ℤ) : AdaptiveScheduler :=
  { s with isRunning := true, lastFetchTime := some now }

/-- C7.  The `isPolling` guard: a `runFetch` entered while the guard
is held returns at once with the state untouched and the poll function
not invoked; otherwise the guard is set (with `lastPollAt` stamped)
before the poll function runs — so a run arriving while one is in
flight is a no-op and the poll function is never invoked by two
overlapping runs — and the guard is cleared afterwards on both the
success and the failure path. -/
theorem isRunning_guard_no_overlap (s : AdaptiveScheduler) (now : ℤ)
    (o : Except Unit ℕ) :
    (s.isRunning = true → s.runFetch now o = (s, false)) ∧
    (s.isRunning = false →
      s.runFetchBegin now = some (inFlight s now) ∧
      (inFlight s now).isRunning = true ∧
      (∀ (now2 : ℤ) (o2 : Except Unit ℕ),
        (inFlight s now).runFetch now2 o2 = (inFlight s now, false)) ∧
      s.runFetch now o = ((inFlight s now).runFetchFinish o, true) ∧
      (∀ o2 : Except Unit ℕ,
        ((inFlight s now).runFetchFinish o2).isRunning = false)) := by
  constructor
  · intro h
    unfold AdaptiveScheduler.runFetch AdaptiveScheduler.runFetchBegin
    simp [h]
  · intro h
    refine ⟨?_, rfl, ?_, ?_, ?_⟩
    · unfold AdaptiveScheduler.runFetchBegin inFlight
      simp [h]
    · intro now2 o2
      unfold AdaptiveScheduler.runFetch AdaptiveScheduler.runFetchBegin inFlight
      simp
    · unfold AdaptiveScheduler.runFetch AdaptiveScheduler.runFetchBegin inFlight
      simp [h]
    · intro o2
      cases o2 <;> rfl

/-- C7 (witness): at the scenario state the guard makes an in-flight
second run a no-op, and a fresh run sets then clears the guard. -/
theorem isRunning_guard_at_scenario :
    (({ scenState 60 0 with isRunning := true } :
        AdaptiveScheduler).runFetch 0 (Except.ok 3) =
      ({ scenState 60 0 with isRunning := true }, false)) ∧
    ((scenState 60 0).runFetchBegin 0 = some (inFlight (scenState 60 0) 0)) ∧
    (((scenState 60 0).runFetch 0 (Except.ok 3)).1.isRunning = false) := by
  refine ⟨(isRunning_guard_no_overlap { scenState 60 0 with isRunning := true }
      0 (Except.ok 3)).1 rfl, ?_, ?_⟩
  · exact ((isRunning_guard_no_overlap (scenState 60 0) 0 (Except.ok 3)).2 rfl).1
  · have h := (isRunning_guard_no_overlap (scenState 60 0) 0 (Except.ok 3)).2 rfl
    rw [h.2.2.2.1]
    exact h.2.2.2.2 (Except.ok 3)

/-- Every record in the ledger has a non-negative remaining budget. -/
def remainingNonneg (st : RateLimitState) : Prop :=
  ∀ ep r, st.rateLimits ep = some r → 0 ≤ r.remaining

/-- A ledger operation whose header-derived remaining value (if it is
an update and it parses) is non-negative. -/
def opRemainingNonneg : LedgerOp → Prop
  | .update _ _ h => ∀ v, parseIntJS h.remaining = some v → 0 ≤ v
  | _ => True

theorem canMakeRequest_preserves_nonneg (st : RateLimitState) (now : ℤ)
    (ep : String) (hn : remainingNonneg st) :
    remainingNonneg (canMakeRequest st now ep).2 := by
  intro k r hk
  unfold canMakeRequest at hk
  rcases hrl : st.rateLimits ep with _ | rl <;> rw [hrl] at hk
  · exact hn k r hk
  · by_cases hs : now ≥ rl.reset
    · simp only [hs, if_true] at hk
      by_cases hke : k = ep
      · simp [hke] at hk
      · simp only [hke, if_false] at hk
        exact hn k r hk
    · simp only [hs, if_false] at hk
      split at hk <;> exact hn k r hk

theorem recordRequest_preserves_nonneg (st : RateLimitState) (now : ℤ)
    (ep : String) (hn : remainingNonneg st) :
    remainingNonneg (recordRequest st now ep) := by
  intro k r hk
  unfold recordRequest at hk
  rcases hrl : st.rateLimits ep with _ | rl <;> rw [hrl] at hk
  · exact hn k r hk
  · by_cases hpos : rl.remaining > 0
    · simp only [hpos, if_true] at hk
      by_cases hke : k = ep
      · simp only [hke, if_true] at hk
        cases hk
        show (0 : ℤ) ≤ rl.remaining - 1
        omega
      · simp only [hke, if_false] at hk
        exact hn k r hk
    · simp only [hpos, if_false] at hk
      exact hn k r hk

theorem updateFromHeaders_preserves_nonneg (st : RateLimitState) (now : ℤ)
    (ep : String) (h : JSHeaders) (hn : remainingNonneg st)
    (hh : ∀ v, parseIntJS h.remaining = some v → 0 ≤ v) :
    remainingNonneg (updateFromHeaders st now ep h) := by
  intro k r hk
  unfold updateFromHeaders at hk
  rcases hl : parseIntJS h.limit with _ | l <;> rw [hl] at hk
  · exact hn k r hk
  · rcases hr : parseIntJS h.remaining with _ | v <;> rw [hr] at hk
    · exact hn k r hk
    · rcases hs : parseIntJS h.reset with _ | rs <;> rw [hs] at hk
      · exact hn k r hk
      · by_cases hke : k = ep
        · simp only [hke, if_true] at hk
          cases hk
          exact hh v hr
        · simp only [hke, if_false] at hk
          exact hn k r hk

/-- C8 (counterexample).  `updateFromHeaders` stores the parsed
remaining value verbatim: a `-1` header drives `remaining` negative,
so "remaining never becomes negative through any sequence of ledger
operations" fails on a single header update. -/
theorem negative_header_stored_verbatim :
    (applyLedgerOps emptyRateLimitState
        [LedgerOp.update 0 "/2/lists/:id/tweets"
          { limit := .num 900, remaining := .num (-1), reset := .num 5 }]).rateLimits
      "/2/lists/:id/tweets" =
      some { limit := 900, remaining := -1, reset := 5000, lastUpdated := 0 } ∧
    ¬ (0 : ℤ) ≤ -1 := by
  constructor
  · simp [applyLedgerOps, applyLedgerOp, updateFromHeaders, parseIntJS,
      emptyRateLimitState]
  · norm_num

/-- C8 (amended).  `recordRequest` decrements `remaining` by exactly 1
when a record with positive budget is present, leaves the quota ledger
unchanged when the record's budget is already 0 (or below) and when no
record is present; consequently `remaining` never becomes negative
through any sequence of `canMakeRequest` / `recordRequest` /
`updateFromHeaders` operations in which every header-derived update
carries a non-negative remaining value (without that proviso,
`updateFromHeaders` stores a negative header value verbatim). -/
theorem recordRequest_floors_and_nonneg_invariant :
    (∀ st (now : ℤ) ep rl, st.rateLimits ep = some rl → rl.remaining > 0 →
      (recordRequest st now ep).rateLimits ep =
        some { rl with remaining := rl.remaining - 1 } ∧
      (∀ k, k ≠ ep → (recordRequest st now ep).rateLimits k = st.rateLimits k)) ∧
    (∀ st (now : ℤ) ep rl, st.rateLimits ep = some rl → rl.remaining ≤ 0 →
      (recordRequest st now ep).rateLimits = st.rateLimits) ∧
    (∀ st (now : ℤ) ep, st.rateLimits ep = none →
      (recordRequest st now ep).rateLimits = st.rateLimits) ∧
    (∀ st ops, remainingNonneg st → (∀ op ∈ ops, opRemainingNonneg op) →
      remainingNonneg (applyLedgerOps st ops)) := by
  refine ⟨?_, ?_, ?_, ?_⟩
  · intro st now ep rl hrl hpos
    unfold recordRequest
    rw [hrl]
    simp only [hpos, if_true]
    exact ⟨by simp, fun k hk => by simp [hk]⟩
  · intro st now ep rl hrl hz
    unfold recordRequest
    rw [hrl]
    simp [not_lt.2 hz]
  · intro st now ep hrl
    unfold recordRequest
    rw [hrl]
  · intro st ops hn hops
    induction ops generalizing st with
    | nil => exact hn
    | cons op rest ih =>
        refine ih _ ?_ (fun o ho => hops o (List.mem_cons_of_mem op ho))
        have hop := hops op (List.mem_cons_self op rest)
        cases op with
        | check now ep => exact canMakeRequest_preserves_nonneg st now ep hn
        | record now ep => exact recordRequest_preserves_nonneg st now ep hn
        | update now ep h => exact updateFromHeaders_preserves_nonneg st now ep h hn hop

/-- C8 (witness): on a record with budget 1 a recorded call leaves 0;
a second recorded call leaves it at 0; and the invariant holds across
a mixed concrete operation sequence. -/
theorem recordRequest_witness_at_concrete :
    (recordRequest (ledgerWith 1 5000) 0 "/2/lists/:id/tweets").rateLimits
      "/2/lists/:id/tweets" =
      some { limit := 900, remaining := 0, reset := 5000, lastUpdated := 0 } ∧
    (recordRequest (ledgerWith 0 5000) 0 "/2/lists/:id/tweets").rateLimits =
      (ledgerWith 0 5000).rateLimits ∧
    remainingNonneg (applyLedgerOps (ledgerWith 1 5000)
      [LedgerOp.record 0 "/2/lists/:id/tweets",
       LedgerOp.record 1 "/2/lists/:id/tweets",
       LedgerOp.update 2 "/2/lists/:id/tweets"
         { limit := .num 900, remaining := .num 899, reset := .num 9 },
       LedgerOp.check 3 "/2/lists/:id/tweets"]) := by
  refine ⟨?_, ?_, ?_⟩
  · have h := (recordRequest_floors_and_nonneg_invariant.1 (ledgerWith 1 5000) 0
      "/2/lists/:id/tweets" _ (ledgerWith_lookup 1 5000) (by norm_num)).1
    rw [h]; norm_num
  · exact recordRequest_floors_and_nonneg_invariant.2.1 (ledgerWith 0 5000) 0
      "/2/lists/:id/tweets" _ (ledgerWith_lookup 0 5000) (by norm_num)
  · refine recordRequest_floors_and_nonneg_invariant.2.2.2 (ledgerWith 1 5000) _
      ?_ ?_
    · intro ep r hr
      simp only [ledgerWith] at hr
      split at hr
      · cases hr; norm_num
      · cases hr
    · intro op hop
      fin_cases hop <;> simp [opRemainingNonneg, parseIntJS]

theorem retryGo_429_run {α : Type} (op : ℕ → Except JsError α) (mR : ℕ) :
    ∀ d a, mR - a = d → a ≤ mR →
    (∀ i, a ≤ i → i ≤ mR → ∃ er, op i = Except.error er ∧ er.code = some 429) →
    (retryGo op mR a).result = op mR ∧
    (retryGo op mR a).invocations = mR - a + 1 ∧
    (retryGo op mR a).finalAttempt = mR + 1 := by
  intro d
  induction d with
  | zero =>
      intro a hd ha hf
      have hae : a = mR := by omega
      subst hae
      obtain ⟨er, hop, hcode⟩ := hf a (le_refl a) (le_refl a)
      unfold retryGo
      rw [hop]
      simp [hcode, show ¬ a < a from by omega]
  | succ d ih =>
      intro a hd ha hf
      have halt : a < mR := by omega
      obtain ⟨er, hop, hcode⟩ := hf a (le_refl a) (by omega)
      have h2 := ih (a + 1) (by omega) (by omega)
        (fun i hi1 hi2 => hf i (by omega) hi2)
      unfold retryGo
      rw [hop]
      dsimp only
      rw [if_pos hcode, dif_pos halt]
      refine ⟨h2.1, ?_, h2.2.2⟩
      show (retryGo op mR (a + 1)).invocations + 1 = mR - a + 1
      rw [h2.2.1]
      omega

theorem retryGo_breaks {α : Type} (op : ℕ → Except JsError α) (mR : ℕ)
    (k : ℕ) (er : JsError) (hk : k ≤ mR) (hop : op k = Except.error er)
    (hcode : er.code ≠ some 429) :
    ∀ d a, k - a = d → a ≤ k →
    (∀ i, a ≤ i → i < k → ∃ er2, op i = Except.error er2 ∧ er2.code = some 429) →
    retryGo op mR a =
      { result := Except.error er, invocations := k - a + 1, finalAttempt := k } := by
  intro d
  induction d with
  | zero =>
      intro a hd ha hf
      have hae : a = k := by omega
      subst hae
      unfold retryGo
      rw [hop]
      dsimp only
      rw [if_neg hcode]
      simp
  | succ d ih =>
      intro a hd ha hf
      have halt : a < k := by omega
      obtain ⟨er2, hop2, hcode2⟩ := hf a (le_refl a) halt
      have h2 := ih (a + 1) (by omega) (by omega)
        (fun i hi1 hi2 => hf i (by omega) hi2)
      unfold retryGo
      rw [hop2]
      dsimp only
      rw [if_pos hcode2, dif_pos (by omega : a < mR)]
      rw [h2]
      have : k - (a + 1) + 1 + 1 = k - a + 1 := by omega
      simp [this]

/-- C4.  The governed retry wrapper: when every attempt fails with a
`code = 429` (QuotaExhausted) error, the operation is invoked exactly
`maxRetries + 1` times and the error of the last attempt is raised;
when the attempts up to some `k ≤ maxRetries` fail with 429 and
attempt `k` fails with a non-429 error (e.g. a 404), the wrapper
raises that error at once, after exactly `k + 1` invocations — in
particular a first-attempt non-429 failure means the operation is
never invoked again. -/
theorem makeRequestWithRetry_retry_policy {α : Type}
    (op : ℕ → Except JsError α) (maxRetries : ℕ) :
    ((∀ i, i ≤ maxRetries → ∃ er, op i = Except.error er ∧ er.code = some 429) →
      (makeRequestWithRetry op maxRetries).invocations = maxRetries + 1 ∧
      (makeRequestWithRetry op maxRetries).result = op maxRetries) ∧
    (∀ k er, k ≤ maxRetries → op k = Except.error er → er.code ≠ some 429 →
      (∀ i, i < k → ∃ er2, op i = Except.error er2 ∧ er2.code = some 429) →
      (makeRequestWithRetry op maxRetries).invocations = k + 1 ∧
      (makeRequestWithRetry op maxRetries).result = Except.error er) := by
  constructor
  · intro hf
    have h := retryGo_429_run op maxRetries maxRetries 0 (by omega) (by omega)
      (fun i _ hi2 => hf i hi2)
    unfold makeRequestWithRetry
    exact ⟨by rw [h.2.1]; omega, h.1⟩
  · intro k er hk hop hcode hpre
    have h := retryGo_breaks op maxRetries k er hk hop hcode k 0 (by omega)
      (by omega) (fun i _ hi2 => hpre i hi2)
    unfold makeRequestWithRetry
    rw [h]
    exact ⟨by simp, rfl⟩

/-- The QuotaExhausted error of `getListTweets`, as the retry loop
sees it: `code = 429`, no attempt-count property. -/
def err429 : JsError :=
  { code := some 429, message := "Rate limit exceeded", attempts := none }

/-- A NotFound error: `code = 404`, no attempt-count property. -/
def err404 : JsError :=
  { code := some 404, message := "List not found", attempts := none }

/-- An operation that fails identically on every attempt. -/
def alwaysFail (e : JsError) : ℕ → Except JsError Unit :=
  fun _ => Except.error e

/-- C4 (witness): with `maxRetries = 2`, an operation that always 429s
is invoked 3 times and its last error is raised; an operation that
404s on the first attempt is invoked once. -/
theorem makeRequestWithRetry_at_concrete_ops :
    (makeRequestWithRetry (alwaysFail err429) 2).invocations = 3 ∧
    (makeRequestWithRetry (alwaysFail err429) 2).result = Except.error err429 ∧
    (makeRequestWithRetry (alwaysFail err404) 2).invocations = 1 := by
  have h1 := (makeRequestWithRetry_retry_policy (alwaysFail err429) 2).1
    (fun i _ => ⟨err429, rfl, rfl⟩)
  have h2 := (makeRequestWithRetry_retry_policy (alwaysFail err404) 2).2 0 err404
    (by omega) rfl (by simp [err404]) (fun i hi => absurd hi (by omega))
  exact ⟨h1.1, h1.2, h2.1⟩

/-- C5 (counterexample).  With `maxRetries = 0` and an operation whose
single attempt fails with a 429 error carrying no attempt-count tag,
the wrapper makes 1 attempt and raises that error object unchanged:
its `attempts` slot is still `none`, not the attempt count 1 — the
raised error carries no attempt-count annotation. -/
theorem raised_error_not_tagged :
    (makeRequestWithRetry (alwaysFail err429) 0).invocations = 1 ∧
    (makeRequestWithRetry (alwaysFail err429) 0).result = Except.error err429 ∧
    err429.attempts = none ∧
    (∀ er : JsError,
      (makeRequestWithRetry (alwaysFail err429) 0).result = Except.error er →
      er.attempts ≠ some 1) := by
  refine ⟨?_, ?_, rfl, ?_⟩
  · simp [makeRequestWithRetry, retryGo, alwaysFail, err429]
  · simp [makeRequestWithRetry, retryGo, alwaysFail, err429]
  · intro er her
    simp [makeRequestWithRetry, retryGo, alwaysFail, err429] at her
    rw [← her]
    simp [err429]

/-- C5 (amended).  On `maxRetries + 1` consecutive QuotaExhausted
failures the wrapper raises the last encountered error object
unchanged (the result is literally the last attempt's outcome); the
total attempt count `maxRetries + 1` is not attached to the error but
is the loop counter's final value — the figure the closing
`Request failed after all retries` log line reports as
`totalAttempts` — and equals the number of invocations made. -/
theorem raised_error_is_last_and_count_logged {α : Type}
    (op : ℕ → Except JsError α) (maxRetries : ℕ)
    (hf : ∀ i, i ≤ maxRetries → ∃ er, op i = Except.error er ∧ er.code = some 429) :
    (makeRequestWithRetry op maxRetries).result = op maxRetries ∧
    (makeRequestWithRetry op maxRetries).finalAttempt = maxRetries + 1 ∧
    (makeRequestWithRetry op maxRetries).finalAttempt =
      (makeRequestWithRetry op maxRetries).invocations := by
  have h := retryGo_429_run op maxRetries maxRetries 0 (by omega) (by omega)
    (fun i _ hi2 => hf i hi2)
  unfold makeRequestWithRetry
  refine ⟨h.1, h.2.2, ?_⟩
  rw [h.2.2, h.2.1]
  omega

/-- C5 (witness): the amended statement at a concrete always-429
operation with `maxRetries = 1`. -/
theorem raised_error_is_last_at_concrete :
    (makeRequestWithRetry (alwaysFail err429) 1).result =
      (alwaysFail err429) 1 ∧
    (makeRequestWithRetry (alwaysFail err429) 1).finalAttempt = 2 ∧
    (makeRequestWithRetry (alwaysFail err429) 1).finalAttempt =
      (makeRequestWithRetry (alwaysFail err429) 1).invocations :=
  raised_error_is_last_and_count_logged (alwaysFail err429) 1
    (fun _ _ => ⟨err429, rfl, rfl⟩)

/-- C9.  A successful poll cycle that saved `> 0` new items clears the
cached feed document and its timestamp, so the next `GET /rss`
regenerates the document (from the store that now includes the new
items) instead of serving the stale cache; a successful poll with zero
new items returns `{success, newTweets = 0}` and leaves the whole
state — cache included — untouched. -/
theorem poll_with_new_items_invalidates_cache (st : AppState)
    (fetched : List String) (now : ℤ) (cacheTimeout : ℚ) :
    (fetched.length > 0 →
      (fetchAndUpdateFeed st fetched).2 =
        { success := true, newTweets := fetched.length } ∧
      (fetchAndUpdateFeed st fetched).1.cachedRSSFeed = none ∧
      (fetchAndUpdateFeed st fetched).1.lastCacheUpdate = none ∧
      (rssHandler (fetchAndUpdateFeed st fetched).1 now cacheTimeout).2.2 = true ∧
      (rssHandler (fetchAndUpdateFeed st fetched).1 now cacheTimeout).2.1 =
        renderFeed (st.dbTweets ++ fetched)) ∧
    (fetchAndUpdateFeed st [] = (st, { success := true, newTweets := 0 })) := by
  constructor
  · intro hlen
    unfold fetchAndUpdateFeed
    rw [if_pos hlen]
    refine ⟨rfl, rfl, rfl, ?_, ?_⟩ <;>
      simp [rssHandler, generateRSSFeed, Option.isNone]
  · unfold fetchAndUpdateFeed
    simp

/-- C9 (witness): one new tweet on a warm cache clears it and the next
`GET /rss` regenerates; an empty poll leaves the warm state alone. -/
theorem poll_invalidation_at_concrete_state :
    ((0 : ℕ) < [String.mk ['b']].length) ∧
    ((fetchAndUpdateFeed
        { dbTweets := [String.mk ['a']],
          cachedRSSFeed := some (String.mk ['a']),
          lastCacheUpdate := some 0 } [String.mk ['b']]).1.cachedRSSFeed = none ∧
      (rssHandler (fetchAndUpdateFeed
        { dbTweets := [String.mk ['a']],
          cachedRSSFeed := some (String.mk ['a']),
          lastCacheUpdate := some 0 } [String.mk ['b']]).1 10 300).2.2 = true) ∧
    (fetchAndUpdateFeed
        { dbTweets := [String.mk ['a']],
          cachedRSSFeed := some (String.mk ['a']),
          lastCacheUpdate := some 0 } [] =
      ({ dbTweets := [String.mk ['a']],
          cachedRSSFeed := some (String.mk ['a']),
          lastCacheUpdate := some 0 },
        { success := true, newTweets := 0 })) := by
  have h := poll_with_new_items_invalidates_cache
    { dbTweets := [String.mk ['a']],
      cachedRSSFeed := some (String.mk ['a']),
      lastCacheUpdate := some 0 } [String.mk ['b']] 10 300
  exact ⟨by norm_num, ⟨(h.1 (by norm_num)).2.1, (h.1 (by norm_num)).2.2.2.1⟩, h.2⟩

/-- C10.  The governed wrapper's header bookkeeping (the segment of
`makeRequestWithRetry` from header extraction to the guarded
`updateFromHeaders` call): when the extracted `x-rate-limit-limit`
slot is falsy — `undefined`, the number 0, or the empty string — the
ledger update is skipped entirely and the quota ledger is left
unchanged, even though `0` parses to a valid limit; `updateFromHeaders`
runs only when the extracted limit value is truthy. -/
theorem ledger_update_skipped_on_falsy_limit (st : RateLimitState) (now : ℤ)
    (ep : String) (resp : UpstreamResponse) :
    ((extractRateLimitHeaders resp).limit.truthy = false →
      headerUpdateStep st now ep resp = st) ∧
    ((extractRateLimitHeaders resp).limit.truthy = true →
      headerUpdateStep st now ep resp =
        updateFromHeaders st now ep (extractRateLimitHeaders resp)) ∧
    (∀ rl, resp.rateLimit = some rl → rl.limit = 0 →
      parseIntJS (extractRateLimitHeaders resp).limit = some 0 ∧
      headerUpdateStep st now ep resp = st) := by
  refine ⟨fun hf => ?_, fun ht => ?_, fun rl hrl hz => ?_⟩
  · unfold headerUpdateStep
    dsimp only
    rw [hf]
    simp
  · unfold headerUpdateStep
    dsimp only
    rw [ht]
    simp
  · have hlim : (extractRateLimitHeaders resp).limit = JSVal.num 0 := by
      unfold extractRateLimitHeaders
      rw [hrl, ← hz]
    constructor
    · rw [hlim]; rfl
    · unfold headerUpdateStep
      dsimp only
      rw [hlim]
      simp [JSVal.truthy]

/-- C10 (witness): a response whose client-library rate-limit object
reports `limit = 0` (parseable, but falsy) leaves an empty ledger
empty. -/
theorem ledger_update_skipped_at_concrete_response :
    parseIntJS (extractRateLimitHeaders
        { rateLimit := some { limit := 0, remaining := 5, reset := 100 },
          underscoreRateLimit := none, headers := none }).limit = some 0 ∧
    headerUpdateStep emptyRateLimitState 0 "/2/lists/:id/tweets"
        { rateLimit := some { limit := 0, remaining := 5, reset := 100 },
          underscoreRateLimit := none, headers := none } =
      emptyRateLimitState :=
  (ledger_update_skipped_on_falsy_limit emptyRateLimitState 0
      "/2/lists/:id/tweets"
      { rateLimit := some { limit := 0, remaining := 5, reset := 100 },
        underscoreRateLimit := none, headers := none }).2.2
    { limit := 0, remaining := 5, reset := 100 } rfl rfl

end Twitter2RSS
